import Mathlib

/-!
Shallow embedding of `src/server/application/TransactionService.js` from
pramodx/manage-my-money-server.

The service layer manipulates three relational tables (`transactions`,
`categories`, `accounts`) through an ORM (`domain.Transaction`, a record
abstraction) and a SQL query builder (`knex`).  The service functions are
translated directly from the source; the persistence primitives the service
delegates to (`save`, `fetch`, `load`, `destroy`, `where(...).fetchAll()`)
live in repository modules that are not part of the supplied source and are
modelled from the spec where so marked.

Dates are modelled as naturals (SQL `BETWEEN` compares them with the usual
total order, inclusively on both ends); monetary amounts as integers.
-/

/-- A row of the `categories` table: columns `id`, `name` (spec section 6). -/
structure Category where
  id : Nat
  name : String
  deriving Repr, DecidableEq

/-- A row of the `accounts` table, an opaque related entity. -/
structure Account where
  id : Int
  name : String
  deriving Repr, DecidableEq

/-- A row of the `transactions` table: columns `id`, `txn_date`, `payee`,
`memo`, `amount`, `account_id`, `category_id` (spec section 6). -/
structure Transaction where
  id : Nat
  txn_date : Nat
  payee : String
  memo : String
  amount : Int
  account_id : Int
  category_id : Nat
  deriving Repr, DecidableEq

/-- The database state: the three tables the service touches. -/
structure DB where
  transactions : List Transaction
  categories : List Category
  accounts : List Account
  deriving Repr, DecidableEq

/-- The plain-data argument of `createTransaction` / `updateTransaction` /
`saveTransaction`: full transaction fields, with `id` optional. -/
structure TransactionData where
  id : Option Nat
  txn_date : Nat
  payee : String
  memo : String
  amount : Int
  account_id : Int
  category_id : Nat
  deriving Repr, DecidableEq

/-- Errors surfaced as rejected promises.  `notFound` is the error raised by a
`fetch(\x7brequire: true\x7d)` that matches no row. -/
inductive DbError where
  | notFound
  deriving Repr, DecidableEq

/-- A transaction record after `.load(['account', 'category'])`: the row plus
its eagerly attached relations (null when the foreign key matches no row). -/
structure LoadedTransaction where
  txn : Transaction
  account : Option Account
  category : Option Category
  deriving Repr, DecidableEq

/-- The record built by `new Transaction(transactionData)` once the store has
fixed its id `i`. -/
def mkTransaction (i : Nat) (d : TransactionData) : Transaction :=
  { id := i, txn_date := d.txn_date, payee := d.payee, memo := d.memo,
    amount := d.amount, account_id := d.account_id,
    category_id := d.category_id }

/-- Largest id present in a list of transaction rows (0 when empty); used to
model the store assigning a fresh id on insert. -/
def maxId (ts : List Transaction) : Nat :=
  ts.foldr (fun t m => max t.id m) 0

/-- Modelled from the spec: the ORM `transaction.save()` primitive of the
`domain.Transaction` record abstraction (repository module not in the supplied
source).  Per spec section 3, an `id` present on the data implies
update-of-existing-row semantics (whole-row replace keyed by id); absence
implies insert-of-new-row semantics with a newly assigned positive identifier.
Returns the new database state and the full copy of the saved record. -/
def TransactionSave (d : TransactionData) (db : DB) : DB × Transaction :=
  match d.id with
  | none =>
    let t := mkTransaction (maxId db.transactions + 1) d
    ({ db with transactions := db.transactions ++ [t] }, t)
  | some i =>
    let t := mkTransaction i d
    ({ db with
        transactions := db.transactions.map (fun u => if u.id == i then t else u) }, t)

/-- `saveTransaction(transactionData)`: constructs the record and invokes its
persist operation (TransactionService.js lines 56-59). -/
def saveTransaction (d : TransactionData) (db : DB) : DB × Transaction :=
  TransactionSave d db

/-- `createTransaction(transactionData)` (TransactionService.js lines 29-31):
delegates to `saveTransaction`. -/
def createTransaction (d : TransactionData) : DB → DB × Transaction :=
  saveTransaction d

/-- `updateTransaction(transactionData)` (TransactionService.js lines 47-49):
delegates to `saveTransaction`. -/
def updateTransaction (d : TransactionData) : DB → DB × Transaction :=
  saveTransaction d

/-- Modelled from the spec: the relation-loading step
`.load(['account', 'category'])` of the record abstraction (the `account` and
`category` belongs-to relations are configured in the record-mapping layer,
spec section 6: `account_id` references accounts, `category_id` references
categories).  Attaches the referenced rows, null when none matches. -/
def loadRelations (db : DB) (t : Transaction) : LoadedTransaction :=
  { txn := t
    account := db.accounts.find? (fun a => a.id == t.account_id)
    category := db.categories.find? (fun c => c.id == t.category_id) }

/-- `getTransaction(id)` (TransactionService.js lines 66-74):
`new Transaction(\x7bid: id\x7d).fetch(\x7brequire: true\x7d)` rejects with a
not-found error when no row matches, otherwise loads the `account` and
`category` relations.  The required fetch is modelled from the spec
(section 7: not-found is raised when a required single-record fetch finds no
matching row). -/
def getTransaction (id : Nat) (db : DB) : Except DbError LoadedTransaction :=
  match db.transactions.find? (fun t => t.id == id) with
  | none => .error .notFound
  | some t => .ok (loadRelations db t)

/-- JavaScript truthiness of the optional numeric `accountId` argument:
`undefined`/`null` (modelled as `none`) and `0` are falsy, every other number
is truthy. -/
def truthy (accountId : Option Int) : Bool :=
  match accountId with
  | none => false
  | some v => v != 0

/-- `getTransactions(accountId)` (TransactionService.js lines 81-97): builds
`filterOptions`, adding `account_id` only when `accountId` is truthy, then
fetches all matching rows and loads their relations.  The
`where(filterOptions).fetchAll()` primitive keeps exactly the rows whose
columns equal the given filter values (no filter keeps every row). -/
def getTransactions (accountId : Option Int) (db : DB) : List LoadedTransaction :=
  let filterOptions : Option Int := if truthy accountId then accountId else none
  let rows :=
    match filterOptions with
    | none => db.transactions
    | some a => db.transactions.filter (fun t => t.account_id == a)
  rows.map (loadRelations db)

/-- SQL `whereBetween('t.txn_date', [startDate, endDate])` applied only when
both optional dates are truthy (TransactionService.js lines 124-127:
`if (startDate && endDate)`); `BETWEEN` is inclusive on both ends.  When
either date is absent the predicate keeps every row. -/
def inRange (startDate endDate : Option Nat) (d : Nat) : Bool :=
  match startDate, endDate with
  | some s, some e => decide (s ≤ d) && decide (d ≤ e)
  | _, _ => true

/-- One transaction's contribution to
`from('transactions as t').leftOuterJoin('categories as c', 't.category_id', 'c.id')`:
one joined row per matching category, or a single row with a null category
when none matches (the left-outer join preserves the left table,
`transactions`). -/
def joinRow (db : DB) (t : Transaction) : List (Transaction × Option Category) :=
  match db.categories.filter (fun c => c.id == t.category_id) with
  | [] => [(t, none)]
  | cs => cs.map (fun c => (t, some c))

/-- The `groupBy('c.id')` key of a joined row: `c.id`, null when the
transaction matched no category. -/
def rowKey (p : Transaction × Option Category) : Option Nat :=
  p.2.map Category.id

/-- Helper for `dedupKeys`: drops the keys already in `seen`, keeping the
first occurrence of each remaining key. -/
def dedupKeysAux (seen : List (Option Nat)) : List (Option Nat) → List (Option Nat)
  | [] => []
  | k :: ks =>
    if k ∈ seen then dedupKeysAux seen ks
    else k :: dedupKeysAux (k :: seen) ks

/-- The distinct group keys in first-appearance order (SQL leaves the output
order of `GROUP BY` unspecified; the model fixes first appearance). -/
def dedupKeys (l : List (Option Nat)) : List (Option Nat) :=
  dedupKeysAux [] l

/-- One output row of the aggregation: `c.id as cat_id`, `c.name as cat_name`,
`sum(t.amount) as amount`. -/
structure CategoryRow where
  cat_id : Option Nat
  cat_name : Option String
  amount : Int
  deriving Repr, DecidableEq

/-- The aggregate output row for group key `k`: `c.id as cat_id`,
`c.name as cat_name` (taken from the group, determined by `c.id` since
category ids are a key), `sum(t.amount) as amount` over the group. -/
def buildRow (joined : List (Transaction × Option Category)) (k : Option Nat) :
    CategoryRow :=
  let grp := joined.filter (fun p => rowKey p == k)
  { cat_id := k
    cat_name := (grp.head?.bind Prod.snd).map Category.name
    amount := (grp.map (fun p => p.1.amount)).sum }

/-- `getTransactionsByCategory(startDate, endDate)` (TransactionService.js
lines 113-133): select `c.id`, `c.name`, `sum(t.amount)` from `transactions`
left-outer-joined with `categories` on `t.category_id = c.id`, restricted to
`t.txn_date BETWEEN startDate AND endDate` only when both dates are given,
grouped by `c.id`. -/
def getTransactionsByCategory (startDate endDate : Option Nat) (db : DB) :
    List CategoryRow :=
  let filtered := db.transactions.filter (fun t => inRange startDate endDate t.txn_date)
  let joined := filtered.flatMap (joinRow db)
  (dedupKeys (joined.map rowKey)).map (buildRow joined)

/-- `deleteTransaction(id)` (TransactionService.js lines 140-142):
`new Transaction(\x7bid: id\x7d).destroy()`, modelled from the spec
(section 4.1: delete-by-id, following the store's own delete-by-id
semantics — every row with that id is removed, zero rows removed is not an
error). -/
def deleteTransaction (id : Nat) (db : DB) : DB :=
  { db with transactions := db.transactions.filter (fun t => t.id != id) }
/-! ### Helper lemmas about the grouping pipeline -/

theorem mem_dedupKeysAux (x : Option Nat) :
    ∀ (l seen : List (Option Nat)), x ∈ dedupKeysAux seen l ↔ x ∈ l ∧ x ∉ seen := by
  intro l
  induction l with
  | nil => intro seen; simp [dedupKeysAux]
  | cons k ks ih =>
    intro seen
    by_cases hk : k ∈ seen
    · rw [dedupKeysAux, if_pos hk]
      simp only [ih seen, List.mem_cons]
      by_cases hxk : x = k
      · subst hxk; tauto
      · tauto
    · rw [dedupKeysAux, if_neg hk]
      simp only [ih (k :: seen), List.mem_cons]
      by_cases hxk : x = k
      · subst hxk; tauto
      · tauto

theorem nodup_dedupKeysAux :
    ∀ (l seen : List (Option Nat)), (dedupKeysAux seen l).Nodup := by
  intro l
  induction l with
  | nil => intro seen; simp [dedupKeysAux]
  | cons k ks ih =>
    intro seen
    by_cases hk : k ∈ seen
    · rw [dedupKeysAux, if_pos hk]; exact ih seen
    · rw [dedupKeysAux, if_neg hk, List.nodup_cons]
      refine ⟨fun hmem => ?_, ih (k :: seen)⟩
      rcases (mem_dedupKeysAux k ks (k :: seen)).1 hmem with ⟨_, hns⟩
      exact hns (List.mem_cons_self k seen)

theorem mem_dedupKeys (x : Option Nat) (l : List (Option Nat)) :
    x ∈ dedupKeys l ↔ x ∈ l := by
  rw [dedupKeys, mem_dedupKeysAux]
  simp

theorem nodup_dedupKeys (l : List (Option Nat)) : (dedupKeys l).Nodup :=
  nodup_dedupKeysAux l []

theorem filter_eq_find_toList {α β : Type} [DecidableEq β] (f : α → β) (k : β) :
    ∀ (l : List α), (l.map f).Nodup →
      l.filter (fun a => f a == k) = (l.find? (fun a => f a == k)).toList := by
  intro l
  induction l with
  | nil => intro _; rfl
  | cons c cs ih =>
    intro hnd
    rw [List.map_cons, List.nodup_cons] at hnd
    cases hfc : (f c == k) with
    | true =>
      have hc : f c = k := beq_iff_eq.mp hfc
      have hnil : cs.filter (fun a => f a == k) = [] := by
        rw [List.filter_eq_nil_iff]
        intro a ha hfa
        apply hnd.1
        have hak : f a = k := beq_iff_eq.mp hfa
        rw [hc, ← hak]
        exact List.mem_map_of_mem f ha
      simp [List.filter_cons, hfc, hnil]
    | false =>
      simp [List.filter_cons, hfc, ih hnd.2]

theorem joinRow_key_some (db : DB) (t : Transaction) (k : Nat) :
    (∃ p ∈ joinRow db t, rowKey p = some k) ↔
      t.category_id = k ∧ ∃ c ∈ db.categories, c.id = k := by
  cases hcf : db.categories.filter (fun c => c.id == t.category_id) with
  | nil =>
    rw [joinRow, hcf]
    constructor
    · rintro ⟨p, hp, hkey⟩
      rw [List.mem_singleton] at hp
      subst hp
      simp [rowKey] at hkey
    · rintro ⟨hcat, c, hc, hck⟩
      exfalso
      have hmem : c ∈ db.categories.filter (fun c => c.id == t.category_id) := by
        rw [List.mem_filter]
        exact ⟨hc, by simp [hck, hcat]⟩
      rw [hcf] at hmem
      cases hmem
  | cons c0 cs0 =>
    rw [joinRow, hcf]
    have hsub : ∀ c, c ∈ c0 :: cs0 → c ∈ db.categories ∧ c.id = t.category_id := by
      intro c hc
      have : c ∈ db.categories.filter (fun c => c.id == t.category_id) := hcf ▸ hc
      rw [List.mem_filter] at this
      exact ⟨this.1, by simpa using this.2⟩
    constructor
    · rintro ⟨p, hp, hkey⟩
      rw [List.mem_map] at hp
      rcases hp with ⟨c, hc, rfl⟩
      simp only [rowKey, Option.map_some] at hkey
      have hck : c.id = k := by simpa using hkey
      rcases hsub c hc with ⟨hcats, hcid⟩
      exact ⟨hcid ▸ hck, c, hcats, hck⟩
    · rintro ⟨hcat, c, hc, hck⟩
      refine ⟨(t, some c0), List.mem_map_of_mem _ (List.mem_cons_self c0 cs0), ?_⟩
      have h0 := hsub c0 (List.mem_cons_self c0 cs0)
      simp [rowKey, h0.2, hcat]

theorem joinRow_key_none (db : DB) (t : Transaction) :
    (∃ p ∈ joinRow db t, rowKey p = none) ↔
      ∀ c ∈ db.categories, c.id ≠ t.category_id := by
  cases hcf : db.categories.filter (fun c => c.id == t.category_id) with
  | nil =>
    rw [joinRow, hcf]
    constructor
    · intro _ c hc hcid
      have hmem : c ∈ db.categories.filter (fun c => c.id == t.category_id) := by
        rw [List.mem_filter]
        exact ⟨hc, by simp [hcid]⟩
      rw [hcf] at hmem
      cases hmem
    · intro _
      exact ⟨(t, none), List.mem_singleton.mpr rfl, rfl⟩
  | cons c0 cs0 =>
    rw [joinRow, hcf]
    constructor
    · rintro ⟨p, hp, hkey⟩
      rw [List.mem_map] at hp
      rcases hp with ⟨c, _, rfl⟩
      simp [rowKey] at hkey
    · intro hnone
      exfalso
      have hmem : c0 ∈ db.categories.filter (fun c => c.id == t.category_id) := by
        rw [hcf]; exact List.mem_cons_self c0 cs0
      rw [List.mem_filter] at hmem
      exact hnone c0 hmem.1 (by simpa using hmem.2)

theorem mem_joined_keys_some (db : DB) (L : List Transaction) (k : Nat) :
    some k ∈ (L.flatMap (joinRow db)).map rowKey ↔
      (∃ c ∈ db.categories, c.id = k) ∧ ∃ t ∈ L, t.category_id = k := by
  simp only [List.mem_map, List.mem_flatMap]
  constructor
  · rintro ⟨p, ⟨t, htL, hpt⟩, hkey⟩
    rcases (joinRow_key_some db t k).1 ⟨p, hpt, hkey⟩ with ⟨hcat, hc⟩
    exact ⟨hc, t, htL, hcat⟩
  · rintro ⟨hc, t, htL, hcat⟩
    rcases (joinRow_key_some db t k).2 ⟨hcat, hc⟩ with ⟨p, hpt, hkey⟩
    exact ⟨p, ⟨t, htL, hpt⟩, hkey⟩

theorem mem_joined_keys_none (db : DB) (L : List Transaction) :
    none ∈ (L.flatMap (joinRow db)).map rowKey ↔
      ∃ t ∈ L, ∀ c ∈ db.categories, c.id ≠ t.category_id := by
  simp only [List.mem_map, List.mem_flatMap]
  constructor
  · rintro ⟨p, ⟨t, htL, hpt⟩, hkey⟩
    exact ⟨t, htL, (joinRow_key_none db t).1 ⟨p, hpt, hkey⟩⟩
  · rintro ⟨t, htL, hnone⟩
    rcases (joinRow_key_none db t).2 hnone with ⟨p, hpt, hkey⟩
    exact ⟨p, ⟨t, htL, hpt⟩, hkey⟩

theorem joinRow_group_amounts (db : DB) (k : Nat)
    (hnd : (db.categories.map Category.id).Nodup)
    (hk : ∃ c ∈ db.categories, c.id = k) (t : Transaction) :
    ((joinRow db t).filter (fun p => rowKey p == some k)).map (fun p => p.1.amount)
      = if t.category_id == k then [t.amount] else [] := by
  cases hck : (t.category_id == k) with
  | true =>
    have hcat : t.category_id = k := by simpa using hck
    have hfe := filter_eq_find_toList Category.id t.category_id db.categories hnd
    rcases hfs : db.categories.find? (fun c => c.id == t.category_id) with _ | c
    · exfalso
      rcases hk with ⟨c, hc, hcid⟩
      rw [List.find?_eq_none] at hfs
      exact hfs c hc (by simp [hcid, hcat])
    · have hcid : c.id = t.category_id := by
        have := List.find?_some hfs
        simpa using this
      rw [hfs] at hfe
      rw [joinRow, hfe]
      simp [rowKey, hcid, hcat]
  | false =>
    have hcat : t.category_id ≠ k := by simpa using hck
    have hnilf : ((joinRow db t).filter (fun p => rowKey p == some k)) = [] := by
      rw [List.filter_eq_nil_iff]
      intro p hp hpk
      have hkey : rowKey p = some k := by simpa using hpk
      rcases (joinRow_key_some db t k).1 ⟨p, hp, hkey⟩ with ⟨h1, _⟩
      exact hcat h1
    rw [hnilf]
    simp [hck]

theorem joined_group_amounts (db : DB) (k : Nat)
    (hnd : (db.categories.map Category.id).Nodup)
    (hk : ∃ c ∈ db.categories, c.id = k) :
    ∀ (L : List Transaction),
      ((L.flatMap (joinRow db)).filter (fun p => rowKey p == some k)).map
          (fun p => p.1.amount)
        = (L.filter (fun t => t.category_id == k)).map Transaction.amount := by
  intro L
  induction L with
  | nil => rfl
  | cons t ts ih =>
    rw [List.flatMap_cons, List.filter_append, List.map_append, ih,
      joinRow_group_amounts db k hnd hk t, List.filter_cons]
    cases hck : (t.category_id == k) with
    | true => simp
    | false => simp

theorem buildRow_cat_id (joined : List (Transaction × Option Category))
    (k : Option Nat) : (buildRow joined k).cat_id = k := rfl

theorem buildRow_amount (joined : List (Transaction × Option Category))
    (k : Option Nat) :
    (buildRow joined k).amount
      = ((joined.filter (fun p => rowKey p == k)).map (fun p => p.1.amount)).sum := rfl

theorem map_buildRow_cat_id (joined : List (Transaction × Option Category)) :
    ∀ (keys : List (Option Nat)),
      (keys.map (buildRow joined)).map CategoryRow.cat_id = keys := by
  intro keys
  induction keys with
  | nil => rfl
  | cons k ks ih => simp only [List.map_cons, buildRow_cat_id, ih]

theorem result_keys (s e : Option Nat) (db : DB) :
    (getTransactionsByCategory s e db).map CategoryRow.cat_id
      = dedupKeys (((db.transactions.filter
          (fun t => inRange s e t.txn_date)).flatMap (joinRow db)).map rowKey) := by
  rw [getTransactionsByCategory]
  exact map_buildRow_cat_id _ _

theorem result_row_shape (s e : Option Nat) (db : DB) (r : CategoryRow)
    (hr : r ∈ getTransactionsByCategory s e db) :
    r = buildRow ((db.transactions.filter
          (fun t => inRange s e t.txn_date)).flatMap (joinRow db)) r.cat_id
    ∧ r.cat_id ∈ ((db.transactions.filter
          (fun t => inRange s e t.txn_date)).flatMap (joinRow db)).map rowKey := by
  rw [getTransactionsByCategory, List.mem_map] at hr
  rcases hr with ⟨k, hk, rfl⟩
  exact ⟨rfl, (mem_dedupKeys _ _).1 hk⟩

theorem filter_inRange_none (db : DB) :
    db.transactions.filter (fun t => inRange none none t.txn_date)
      = db.transactions :=
  List.filter_eq_self.mpr (fun _ _ => rfl)

theorem map_txn_loadRelations (db : DB) (L : List Transaction) :
    (L.map (loadRelations db)).map LoadedTransaction.txn = L := by
  rw [List.map_map]
  have h : (LoadedTransaction.txn ∘ loadRelations db) = id := rfl
  rw [h]
  exact List.map_id L

/-! ### Claim theorems -/

/-- C1, corrected.  The claim states the aggregation yields one row for every
category, including categories with no matching transactions, because of the
left-outer join.  The code joins `from('transactions as t')` with
`leftOuterJoin('categories as c', ...)`: the preserved (left) table is
`transactions`, so a category with no matching transaction yields no row
(see the counterexample).  What holds instead: the result has exactly one row
per distinct group key present among the (range-filtered) transactions — a
category id `k` appears iff some filtered transaction references an existing
category with id `k`, and the transactions referencing no existing category
are aggregated under a single null `cat_id` row. -/
theorem getTransactionsByCategory_rows_C1 (s e : Option Nat) (db : DB) :
    ((getTransactionsByCategory s e db).map CategoryRow.cat_id).Nodup
    ∧ (∀ k : Nat,
        some k ∈ (getTransactionsByCategory s e db).map CategoryRow.cat_id ↔
          (∃ c ∈ db.categories, c.id = k)
          ∧ ∃ t ∈ db.transactions.filter (fun t => inRange s e t.txn_date),
              t.category_id = k)
    ∧ (none ∈ (getTransactionsByCategory s e db).map CategoryRow.cat_id ↔
        ∃ t ∈ db.transactions.filter (fun t => inRange s e t.txn_date),
          ∀ c ∈ db.categories, c.id ≠ t.category_id) := by
  rw [result_keys]
  refine ⟨nodup_dedupKeys _, fun k => ?_, ?_⟩
  · rw [mem_dedupKeys]
    exact mem_joined_keys_some db _ k
  · rw [mem_dedupKeys]
    exact mem_joined_keys_none db _

/-- A database with one category and no transactions. -/
def dbOneCat : DB :=
  { transactions := [], categories := [⟨1, "A"⟩], accounts := [] }

/-- C1 counterexample: on a database whose `categories` table has the single
category 1 and whose `transactions` table is empty, `getTransactionsByCategory`
returns no row at all for category 1 — refuting, at this concrete input, the
claim that the result contains one row for every category including
categories with no matching transactions. -/
theorem getTransactionsByCategory_missing_category_C1 :
    ¬ ∀ c ∈ dbOneCat.categories,
        ∃ r ∈ getTransactionsByCategory none none dbOneCat,
          r.cat_id = some c.id := by
  decide

/-- C2, confirmed.  Every row of `getTransactionsByCategory(start, end)` whose
`cat_id` is a (non-null) category id `k` carries `amount` equal to the sum of
the `amount`s of the transactions of category `k` whose `txn_date` lies in the
inclusive range (the range restriction being active exactly when both dates
are supplied); with both dates omitted the sum ranges over all of the
category's transactions.  The hypothesis that category ids are pairwise
distinct is the `categories` primary-key schema invariant (spec section 6). -/
theorem getTransactionsByCategory_amounts_C2 (db : DB)
    (hnd : (db.categories.map Category.id).Nodup) :
    (∀ s e : Option Nat, ∀ r ∈ getTransactionsByCategory s e db, ∀ k : Nat,
        r.cat_id = some k →
        r.amount = (((db.transactions.filter
            (fun t => inRange s e t.txn_date)).filter
            (fun t => t.category_id == k)).map Transaction.amount).sum)
    ∧ (∀ r ∈ getTransactionsByCategory none none db, ∀ k : Nat,
        r.cat_id = some k →
        r.amount = ((db.transactions.filter
            (fun t => t.category_id == k)).map Transaction.amount).sum) := by
  have main : ∀ s e : Option Nat, ∀ r ∈ getTransactionsByCategory s e db, ∀ k : Nat,
      r.cat_id = some k →
      r.amount = (((db.transactions.filter
          (fun t => inRange s e t.txn_date)).filter
          (fun t => t.category_id == k)).map Transaction.amount).sum := by
    intro s e r hr k hck
    rcases result_row_shape s e db r hr with ⟨hshape, hmem⟩
    rw [hck] at hshape hmem
    have hk : ∃ c ∈ db.categories, c.id = k :=
      ((mem_joined_keys_some db _ k).1 hmem).1
    conv_lhs => rw [hshape, buildRow_amount]
    rw [joined_group_amounts db k hnd hk]
  refine ⟨main, ?_⟩
  intro r hr k hck
  have h2 := main none none r hr k hck
  rwa [filter_inRange_none] at h2

/-- The database of the worked example in spec section 8: two transactions of
category 1 with amounts -30 and -20, one transaction of category 2 with
amount 100. -/
def exDB : DB :=
  { transactions := [
      { id := 1, txn_date := 0, payee := "p", memo := "m", amount := -30,
        account_id := 1, category_id := 1 },
      { id := 2, txn_date := 0, payee := "p", memo := "m", amount := -20,
        account_id := 1, category_id := 1 },
      { id := 3, txn_date := 0, payee := "p", memo := "m", amount := 100,
        account_id := 1, category_id := 2 }],
    categories := [⟨1, "A"⟩, ⟨2, "B"⟩],
    accounts := [] }

/-- C2 witness: on the spec's worked example the category-1 row exists and the
theorem applies, giving amount -30 + -20 = -50. -/
theorem getTransactionsByCategory_amounts_C2_witness :
    ∃ r ∈ getTransactionsByCategory none none exDB,
      r.cat_id = some 1
      ∧ r.amount = ((exDB.transactions.filter
          (fun t => t.category_id == 1)).map Transaction.amount).sum := by
  refine ⟨⟨some 1, some "A", -50⟩, ?_, rfl, ?_⟩
  · decide
  · exact (getTransactionsByCategory_amounts_C2 exDB (by decide)).2
      ⟨some 1, some "A", -50⟩ (by decide) 1 rfl

/-- C9, confirmed.  When exactly one of `startDate`/`endDate` is supplied
(the other absent or null), the `if (startDate && endDate)` guard is false, so
the `whereBetween` filter is silently dropped and the result coincides with
the unfiltered call; no error is raised (the function is total). -/
theorem getTransactionsByCategory_single_date_C9 (db : DB) (s e : Nat) :
    getTransactionsByCategory (some s) none db
        = getTransactionsByCategory none none db
    ∧ getTransactionsByCategory none (some e) db
        = getTransactionsByCategory none none db :=
  ⟨rfl, rfl⟩

/-- C10, confirmed.  A falsy `accountId` — `undefined`/`null` (modelled as
`none`) or `0` — fails the `if (accountId)` truthiness test, so no
`account_id` filter is added and every transaction row is returned, rather
than the rows of account 0. -/
theorem getTransactions_falsy_C10 (db : DB) :
    getTransactions (some 0) db = getTransactions none db
    ∧ (getTransactions none db).map LoadedTransaction.txn = db.transactions :=
  ⟨rfl, map_txn_loadRelations db db.transactions⟩

/-- C6, amended claim.  With no argument, every row is returned; for every
NONZERO integer `accountId`, exactly the rows whose `account_id` equals
`accountId` are returned, and the filtered result is a subset of the
unfiltered one.  (The original claim quantified over every integer; it fails
at `accountId = 0`, which JavaScript truthiness sends down the unfiltered
branch — see the counterexample and C10.) -/
theorem getTransactions_filter_C6 (db : DB) (a : Int) (ha : a ≠ 0) :
    (getTransactions none db).map LoadedTransaction.txn = db.transactions
    ∧ (getTransactions (some a) db).map LoadedTransaction.txn
        = db.transactions.filter (fun t => t.account_id == a)
    ∧ ∀ l ∈ getTransactions (some a) db, l ∈ getTransactions none db := by
  have htr : truthy (some a) = true := by simp [truthy, ha]
  have hfo : getTransactions (some a) db
      = (db.transactions.filter
          (fun t => t.account_id == a)).map (loadRelations db) := by
    rw [getTransactions, htr]
    simp
  refine ⟨map_txn_loadRelations db db.transactions, ?_, ?_⟩
  · rw [hfo]
    exact map_txn_loadRelations db _
  · intro l hl
    rw [hfo, List.mem_map] at hl
    rcases hl with ⟨t, ht, rfl⟩
    show loadRelations db t ∈ db.transactions.map (loadRelations db)
    exact List.mem_map_of_mem _ (List.mem_filter.1 ht).1

/-- A database whose single transaction belongs to account 1. -/
def dbAcct : DB :=
  { transactions := [
      { id := 1, txn_date := 0, payee := "p", memo := "m", amount := 5,
        account_id := 1, category_id := 1 }],
    categories := [], accounts := [] }

/-- C6 counterexample: at `accountId = 0` the returned rows are not the rows
whose `account_id` equals 0 — the account-1 row is returned, because the falsy
`0` drops the filter. -/
theorem getTransactions_zero_account_C6 :
    ¬ ∀ l ∈ getTransactions (some 0) dbAcct, l.txn.account_id = 0 := by
  decide

/-- C6 witness: the amended theorem applied at `accountId = 1` on `dbAcct`. -/
theorem getTransactions_filter_C6_witness :
    (getTransactions none dbAcct).map LoadedTransaction.txn = dbAcct.transactions
    ∧ (getTransactions (some 1) dbAcct).map LoadedTransaction.txn
        = dbAcct.transactions.filter (fun t => t.account_id == 1)
    ∧ ∀ l ∈ getTransactions (some 1) dbAcct, l ∈ getTransactions none dbAcct :=
  getTransactions_filter_C6 dbAcct 1 (by decide)

/-- C3, confirmed.  `getTransaction(id)` rejects with not-found when no
transaction row carries `id`; when a row with `id` exists it fulfils with that
record and its eagerly attached, non-null `account` and `category` relations.
The transaction-id uniqueness hypothesis is the primary-key schema invariant,
and the two existence hypotheses are the referential-integrity invariant the
schema enforces on `account_id` and `category_id` (spec section 6). -/
theorem getTransaction_spec_C3 (id : Nat) (db : DB) :
    ((∀ t ∈ db.transactions, t.id ≠ id) →
      getTransaction id db = .error .notFound)
    ∧ (∀ t, t ∈ db.transactions → t.id = id →
        (db.transactions.map Transaction.id).Nodup →
        (∃ a ∈ db.accounts, a.id = t.account_id) →
        (∃ c ∈ db.categories, c.id = t.category_id) →
        getTransaction id db = .ok (loadRelations db t)
        ∧ (loadRelations db t).txn = t
        ∧ (loadRelations db t).account.isSome = true
        ∧ (loadRelations db t).category.isSome = true) := by
  constructor
  · intro hno
    have hnone : db.transactions.find? (fun t => t.id == id) = none := by
      rw [List.find?_eq_none]
      intro t ht
      simpa using hno t ht
    rw [getTransaction, hnone]
  · intro t ht htid hnd ha hc
    have hxsome : (db.transactions.find? (fun t => t.id == id)).isSome = true := by
      rw [List.find?_isSome]
      exact ⟨t, ht, by simp [htid]⟩
    rcases Option.isSome_iff_exists.mp hxsome with ⟨u, hu⟩
    have huid : u.id = id := by simpa using List.find?_some hu
    have humem : u ∈ db.transactions := List.mem_of_find?_eq_some hu
    have hut : u = t :=
      List.inj_on_of_nodup_map hnd humem ht (by rw [huid, htid])
    refine ⟨?_, rfl, ?_, ?_⟩
    · rw [getTransaction, hu, hut]
    · show (db.accounts.find? (fun x => x.id == t.account_id)).isSome = true
      rw [List.find?_isSome]
      rcases ha with ⟨a, haa, haid⟩
      exact ⟨a, haa, by simp [haid]⟩
    · show (db.categories.find? (fun x => x.id == t.category_id)).isSome = true
      rw [List.find?_isSome]
      rcases hc with ⟨c, hcc, hcid⟩
      exact ⟨c, hcc, by simp [hcid]⟩

/-- A one-row database with matching account and category rows, used to
instantiate the hypotheses of the claim theorems. -/
def dbW : DB :=
  { transactions := [
      { id := 1, txn_date := 0, payee := "p", memo := "m", amount := 5,
        account_id := 1, category_id := 1 }],
    categories := [⟨1, "A"⟩],
    accounts := [⟨1, "B"⟩] }

/-- C3 witness: on `dbW`, id 99 matches no row and rejects not-found, while
id 1 matches and fulfils with non-null relations. -/
theorem getTransaction_spec_C3_witness :
    getTransaction 99 dbW = .error .notFound
    ∧ (getTransaction 1 dbW
          = .ok (loadRelations dbW
              { id := 1, txn_date := 0, payee := "p", memo := "m", amount := 5,
                account_id := 1, category_id := 1 })
        ∧ (loadRelations dbW
              { id := 1, txn_date := 0, payee := "p", memo := "m", amount := 5,
                account_id := 1, category_id := 1 }).txn
            = { id := 1, txn_date := 0, payee := "p", memo := "m", amount := 5,
                account_id := 1, category_id := 1 }
        ∧ (loadRelations dbW
              { id := 1, txn_date := 0, payee := "p", memo := "m", amount := 5,
                account_id := 1, category_id := 1 }).account.isSome = true
        ∧ (loadRelations dbW
              { id := 1, txn_date := 0, payee := "p", memo := "m", amount := 5,
                account_id := 1, category_id := 1 }).category.isSome = true) :=
  ⟨(getTransaction_spec_C3 99 dbW).1 (by decide),
   (getTransaction_spec_C3 1 dbW).2
      { id := 1, txn_date := 0, payee := "p", memo := "m", amount := 5,
        account_id := 1, category_id := 1 }
      (by decide) (by decide) (by decide) (by decide) (by decide)⟩

theorem le_maxId : ∀ (ts : List Transaction), ∀ t ∈ ts, t.id ≤ maxId ts := by
  intro ts
  induction ts with
  | nil => intro t ht; cases ht
  | cons u us ih =>
    intro t ht
    rcases List.mem_cons.1 ht with h | h
    · rw [h]
      exact Nat.le_max_left u.id (maxId us)
    · exact Nat.le_trans (ih t h) (Nat.le_max_right u.id (maxId us))

/-- C4, confirmed.  For transaction data carrying no identifier,
`createTransaction` performs an insert: the new database appends exactly one
row, the returned record's identifier is a freshly assigned positive integer
(no existing row carries it), and every other field of the returned record
equals the corresponding input field. -/
theorem createTransaction_insert_C4 (d : TransactionData) (db : DB)
    (h : d.id = none) :
    0 < (createTransaction d db).2.id
    ∧ (∀ u ∈ db.transactions, u.id ≠ (createTransaction d db).2.id)
    ∧ (createTransaction d db).1.transactions
        = db.transactions ++ [(createTransaction d db).2]
    ∧ (createTransaction d db).2.txn_date = d.txn_date
    ∧ (createTransaction d db).2.payee = d.payee
    ∧ (createTransaction d db).2.memo = d.memo
    ∧ (createTransaction d db).2.amount = d.amount
    ∧ (createTransaction d db).2.account_id = d.account_id
    ∧ (createTransaction d db).2.category_id = d.category_id := by
  have hc : createTransaction d db
      = ({ db with transactions :=
            db.transactions ++ [mkTransaction (maxId db.transactions + 1) d] },
         mkTransaction (maxId db.transactions + 1) d) := by
    rw [createTransaction, saveTransaction, TransactionSave, h]
  rw [hc]
  refine ⟨Nat.succ_pos _, ?_, rfl, rfl, rfl, rfl, rfl, rfl, rfl⟩
  intro u hu hne
  have hle := le_maxId db.transactions u hu
  rw [hne] at hle
  simp only [mkTransaction] at hle
  omega

/-- Insert-shaped data: all fields given, no identifier. -/
def dIns : TransactionData :=
  { id := none, txn_date := 0, payee := "p", memo := "m", amount := 5,
    account_id := 1, category_id := 1 }

/-- C4 witness: the theorem applied to `dIns` on `dbW`. -/
theorem createTransaction_insert_C4_witness :
    0 < (createTransaction dIns dbW).2.id
    ∧ (∀ u ∈ dbW.transactions, u.id ≠ (createTransaction dIns dbW).2.id)
    ∧ (createTransaction dIns dbW).1.transactions
        = dbW.transactions ++ [(createTransaction dIns dbW).2] := by
  rcases createTransaction_insert_C4 dIns dbW rfl with ⟨h1, h2, h3, _⟩
  exact ⟨h1, h2, h3⟩

/-- C5, confirmed.  For transaction data whose identifier `i` matches an
existing row, `updateTransaction` replaces the whole row keyed by `i` (every
row of the new table is the old row unless its id is `i`, in which case it is
the full record built from the input), the updated record is in the new
table, and the returned record's fields equal the input with identifier `i`
unchanged. -/
theorem updateTransaction_replace_C5 (d : TransactionData) (db : DB) (i : Nat)
    (h : d.id = some i) (hex : ∃ u ∈ db.transactions, u.id = i) :
    (updateTransaction d db).2 = mkTransaction i d
    ∧ (updateTransaction d db).2.id = i
    ∧ (updateTransaction d db).1.transactions
        = db.transactions.map
            (fun u => if u.id == i then mkTransaction i d else u)
    ∧ (updateTransaction d db).2 ∈ (updateTransaction d db).1.transactions
    ∧ (updateTransaction d db).2.txn_date = d.txn_date
    ∧ (updateTransaction d db).2.payee = d.payee
    ∧ (updateTransaction d db).2.memo = d.memo
    ∧ (updateTransaction d db).2.amount = d.amount
    ∧ (updateTransaction d db).2.account_id = d.account_id
    ∧ (updateTransaction d db).2.category_id = d.category_id := by
  have hc : updateTransaction d db
      = ({ db with transactions :=
            db.transactions.map (fun u => if u.id == i then mkTransaction i d else u) },
         mkTransaction i d) := by
    rw [updateTransaction, saveTransaction, TransactionSave, h]
  rw [hc]
  refine ⟨rfl, rfl, rfl, ?_, rfl, rfl, rfl, rfl, rfl, rfl⟩
  rcases hex with ⟨u, hu, hui⟩
  show mkTransaction i d
      ∈ db.transactions.map (fun u => if u.id == i then mkTransaction i d else u)
  rw [List.mem_map]
  exact ⟨u, hu, by simp [hui]⟩

/-- Update-shaped data: all fields given, identifier 1 (the row in `dbW`). -/
def dUpd : TransactionData :=
  { id := some 1, txn_date := 7, payee := "q", memo := "n", amount := -9,
    account_id := 2, category_id := 2 }

/-- C5 witness: the theorem applied to `dUpd` on `dbW`, whose row 1 exists. -/
theorem updateTransaction_replace_C5_witness :
    (updateTransaction dUpd dbW).2 = mkTransaction 1 dUpd
    ∧ (updateTransaction dUpd dbW).2.id = 1
    ∧ (updateTransaction dUpd dbW).2 ∈ (updateTransaction dUpd dbW).1.transactions := by
  rcases updateTransaction_replace_C5 dUpd dbW 1 rfl
      ⟨{ id := 1, txn_date := 0, payee := "p", memo := "m", amount := 5,
          account_id := 1, category_id := 1 }, by decide, rfl⟩
    with ⟨h1, h2, _, h4, _⟩
  exact ⟨h1, h2, h4⟩

/-- C7, confirmed.  After `deleteTransaction(id)` removes every row carrying
`id`, the required fetch of `getTransaction(id)` finds no matching row and
rejects with not-found, for every id and every database state. -/
theorem deleteTransaction_then_get_C7 (id : Nat) (db : DB) :
    getTransaction id (deleteTransaction id db) = .error .notFound := by
  have hnone : (deleteTransaction id db).transactions.find?
      (fun t => t.id == id) = none := by
    show (db.transactions.filter (fun t => t.id != id)).find?
        (fun t => t.id == id) = none
    rw [List.find?_eq_none]
    intro t ht
    have hb := (List.mem_filter.1 ht).2
    simpa using hb
  rw [getTransaction, hnone]

/-- C8, confirmed.  `createTransaction` and `updateTransaction` are literally
the same function, both equal to the underlying persist operation
`saveTransaction`; whether an insert (append of the new row) or an update
(whole-row replace keyed by the id) happens is determined solely by the
presence of `id` on the data, not by the entry point called. -/
theorem save_routing_C8 :
    createTransaction = updateTransaction
    ∧ createTransaction = saveTransaction
    ∧ updateTransaction = saveTransaction
    ∧ (∀ (d : TransactionData) (db : DB), d.id = none →
        (saveTransaction d db).1.transactions
          = db.transactions ++ [(saveTransaction d db).2])
    ∧ (∀ (d : TransactionData) (db : DB) (i : Nat), d.id = some i →
        (saveTransaction d db).1.transactions
          = db.transactions.map (fun u =>
              if u.id == i then (saveTransaction d db).2 else u)) := by
  refine ⟨rfl, rfl, rfl, ?_, ?_⟩
  · intro d db h
    rw [saveTransaction, TransactionSave, h]
  · intro d db i h
    rw [saveTransaction, TransactionSave, h]

/-- C8 witness: the routing conjuncts applied at concrete inputs — `dIns`
(no id) inserts, `dUpd` (id 1) updates. -/
theorem save_routing_C8_witness :
    (saveTransaction dIns dbW).1.transactions
        = dbW.transactions ++ [(saveTransaction dIns dbW).2]
    ∧ (saveTransaction dUpd dbW).1.transactions
        = dbW.transactions.map (fun u =>
            if u.id == 1 then (saveTransaction dUpd dbW).2 else u) :=
  ⟨save_routing_C8.2.2.2.1 dIns dbW rfl,
   save_routing_C8.2.2.2.2 dUpd dbW 1 rfl⟩
